import Mathlib

/-!
Verification of the runproc repository (a minimal OCI-style runtime) against
its natural-language specification.  The Go source is shallowly embedded:
pure string and list manipulation is translated directly, filesystem effects
become explicit passing of an association-list filesystem, and OS oracles
(child pid, wait status, signal-probe results, clock readings) become
explicit parameters.  Go machine integers are modelled by Int (no value in
this program approaches an overflow boundary), and time.Time values by their
wall-clock instant in integer nanoseconds.
-/

namespace Runproc

/-! ## String helpers mirroring the Go standard library calls used -/

/-- Character-list prefix test: charsPre pat l is true when pat is an initial
segment of l.  Backs the model of strings.HasPrefix. -/
def charsPre : List Char → List Char → Bool
  | [], _ => true
  | _ :: _, [] => false
  | a :: as, b :: bs => a == b && charsPre as bs

/-- Model of Go strings.HasPrefix. -/
def hasPre (s pat : String) : Bool := charsPre pat.data s.data

/-- Model of Go strings.TrimPrefix: drop pat from the front of s when it is a
prefix, otherwise return s unchanged. -/
def trimPre (s pat : String) : String :=
  if hasPre s pat then String.mk (s.data.drop pat.data.length) else s

/-- ASCII lower-casing of a character (Go strings.EqualFold restricted to the
ASCII arguments this program compares against). -/
def lowerChar (c : Char) : Char :=
  if 'A' ≤ c && c ≤ 'Z' then Char.ofNat (c.toNat + 32) else c

/-- Lower-cased copy of a string. -/
def lowerStr (s : String) : String := String.mk (s.data.map lowerChar)

/-- Model of Go strings.EqualFold (case-insensitive equality; the program only
compares against the ASCII literals "true" and "yes", for which simple ASCII
folding coincides with Unicode simple folding). -/
def eqFold (a b : String) : Bool := lowerStr a == lowerStr b

/-- Numeric value of a decimal digit character, none for a non-digit. -/
def digitNat (c : Char) : Option Nat :=
  if '0' ≤ c && c ≤ '9' then some (c.toNat - 48) else none

/-- Accumulating decimal parse of a digit list; fails on any non-digit. -/
def digitsCore : List Char → Nat → Option Nat
  | [], acc => some acc
  | c :: rest, acc =>
    match digitNat c with
    | some d => digitsCore rest (acc * 10 + d)
    | none => none

/-- Parse a non-empty all-digit character list as a natural number. -/
def parseDigits (l : List Char) : Option Nat :=
  match l with
  | [] => none
  | _ :: _ => digitsCore l 0

/-- Model of Go strconv.Atoi: optional sign followed by at least one decimal
digit (overflow is ignored; the signals involved are tiny). -/
def atoi (s : String) : Option Int :=
  match s.data with
  | [] => none
  | c :: rest =>
    if c = '-' then (parseDigits rest).map (fun n => -(n : Int))
    else if c = '+' then (parseDigits rest).map (fun n => (n : Int))
    else (parseDigits (c :: rest)).map (fun n => (n : Int))

/-- Model of isAllDigits from cmd/runproc/cli.go: non-empty and every
character a decimal digit. -/
def isAllDigits (s : String) : Bool :=
  !s.data.isEmpty && s.data.all (fun c => '0' ≤ c && c ≤ '9')

/-- Association-list lookup with string keys, modelling a Go map read. -/
def lookupStr : List (String × String) → String → Option String
  | [], _ => none
  | (k, v) :: rest, q => if k = q then some v else lookupStr rest q

/-! ## Data model (internal/state and internal/oci)

Go type Status is a string type; the three constants below are the values the
program writes.  time.Time is modelled by its wall-clock instant in integer
nanoseconds (the JSON serialization RFC3339Nano is injective at that
granularity).  Go maps are modelled by association lists (Go marshals map
keys in sorted order and unmarshalling rebuilds the map, so a fixed list
faithfully represents one map value); a nil map is distinguished from an
empty one by the surrounding Option, exactly as a nil Go map differs from an
allocated empty map. -/

/-- Status constant "created" from internal/state. -/
def Created : String := "created"

/-- Status constant "running" from internal/state. -/
def Running : String := "running"

/-- Status constant "stopped" from internal/state. -/
def Stopped : String := "stopped"

/-- Model of time.Time by its wall-clock instant in nanoseconds. -/
abbrev Time := Int

/-- ContainerState from internal/state: the durable per-container record. -/
structure ContainerState where
  ID : String
  Bundle : String
  Pid : Int
  Status : String
  CreatedAt : Time
  StartedAt : Option Time
  ExitedAt : Option Time
  ExitCode : Option Int
  Annotations : Option (List (String × String))
  PidFile : String
deriving DecidableEq

/-- Process from internal/oci: the piece of the Spec describing the program. -/
structure Process where
  Terminal : Bool
  Args : List String
  Env : List String
  Cwd : String
deriving DecidableEq

/-- Root from internal/oci: the root filesystem description. -/
structure Root where
  Path : String
  Readonly : Bool
deriving DecidableEq

/-- Spec from internal/oci.  The Process and Root fields are pointers in Go
(nillable), hence Option here; Annotations is a nillable map. -/
structure Spec where
  OCIVersion : String
  Process : Option Runproc.Process
  Root : Option Runproc.Root
  Annotations : Option (List (String × String))
deriving DecidableEq

/-! ## pidAlive (claim C9) -/

/-- The error numbers a kill(pid, 0) probe can produce that this program
distinguishes. -/
inductive Errno where
  | EPERM
  | ESRCH
  | EINVAL
deriving DecidableEq

/-- Model of pidAlive from the command package: the probe argument is the
outcome of the syscall.Kill(pid, 0) liveness probe (none for success).  A
non-positive pid is dead without probing; success or EPERM count as alive;
every other errno counts as dead. -/
def pidAlive (pid : Int) (probe : Option Errno) : Bool :=
  if pid ≤ 0 then false
  else
    match probe with
    | none => true
    | some e => if e = Errno.EPERM then true else false

/-! ## Host-mode decision in cmdInit (claim C5) -/

/-- Truthiness test applied to every host-mode signal: the literal "1" or a
case-insensitive match of "true" or "yes". -/
def truthyVal (v : String) : Bool :=
  v == "1" || eqFold v "true" || eqFold v "yes"

/-- The declared-environment host-mode signal: some entry of the target
process env list has the form RUNPROC_HOST=v with v truthy.  The for/break
loop of cmdInit computes exactly this List.any. -/
def envHostSignal (penv : List String) : Bool :=
  penv.any (fun e => hasPre e "RUNPROC_HOST=" && truthyVal (trimPre e "RUNPROC_HOST="))

/-- The annotation host-mode signal: the Spec annotation map is non-nil,
holds key "runproc.host", and its value is truthy. -/
def annotHostSignal (annots : Option (List (String × String))) : Bool :=
  match annots with
  | none => false
  | some m =>
    match lookupStr m "runproc.host" with
    | none => false
    | some v => truthyVal v

/-- Model of the hostMode computation in cmdInit, following the source
statement by statement: ownHost is the value of the supervisors own
RUNPROC_HOST environment variable (empty when unset), penv the declared
target-process env list, annots the Spec annotations. -/
def hostModeOf (ownHost : String) (penv : List String)
    (annots : Option (List (String × String))) : Bool :=
  let h1 := if truthyVal ownHost then true else false
  let h2 := if !h1 then (if envHostSignal penv then true else h1) else h1
  match annots with
  | some m =>
    (match lookupStr m "runproc.host" with
     | some v => if truthyVal v then true else h2
     | none => h2)
  | none => h2

/-! ## Chroot step in cmdInit (claim C6) -/

/-- Go filepath.IsAbs on unix: the path begins with a slash. -/
def isAbsPath (p : String) : Bool := hasPre p "/"

/-- Go filepath.Join for the two-argument calls in this program (Join also
lexically cleans the result; no claim depends on cleaning). -/
def joinPath (a b : String) : String := a ++ "/" ++ b

/-- The root-change action cmdInit performs when it decides to chroot:
the chroot target and the working directory set immediately afterwards. -/
structure ChrootAct where
  newRoot : String
  postChdir : String
deriving DecidableEq

/-- Model of the chroot decision in cmdInit: performed exactly when host mode
is off, the Spec has a non-nil Root with a non-empty Path, and the effective
uid is 0; the path is taken as-is when absolute, otherwise joined onto the
bundle; afterwards the working directory becomes the filesystem root. -/
def chrootStep (hostMode : Bool) (root : Option Runproc.Root) (euid : Int)
    (bundle : String) : Option ChrootAct :=
  match root with
  | some r =>
    if !hostMode && !(r.Path == "") && euid == 0 then
      some { newRoot := if isAbsPath r.Path then r.Path else joinPath bundle r.Path
             postChdir := "/" }
    else none
  | none => none

/-- Effectful wrapper for the chroot step: cf and cd are the oracle outcomes
of the chroot and chdir syscalls (true = failure).  When the decision is to
skip, no syscall runs and no error is produced. -/
def chrootRun (hostMode : Bool) (root : Option Runproc.Root) (euid : Int)
    (bundle : String) (cf cd : Bool) : Except String (Option ChrootAct) :=
  match chrootStep hostMode root euid bundle with
  | none => Except.ok none
  | some act =>
    if cf then Except.error "chroot"
    else if cd then Except.error "chdir after chroot"
    else Except.ok (some act)

/-! ## argv construction and environment setup in cmdInit (claims C4, C10) -/

/-- Model of the argv construction in cmdInit: the source indexes p.Args[0]
unconditionally, which panics on an empty vector (modelled as none); for a
non-empty vector the full argument list is passed through. -/
def buildArgv (args : List String) : Option (List String) :=
  match args with
  | [] => none
  | a :: rest => some (if rest.isEmpty then [a] else a :: rest)

/-- Split an entry at its first '=' (Go strings.SplitN(e, "=", 2) producing
two parts); none when the entry has no '='. -/
def splitEq1 : List Char → Option (List Char × List Char)
  | [] => none
  | c :: rest =>
    if c = '=' then some ([], rest)
    else
      match splitEq1 rest with
      | some (a, b) => some (c :: a, b)
      | none => none

/-- Model of os.Setenv on an association-list environment: replace the value
under an existing key, otherwise append the binding. -/
def setenvL (env : List (String × String)) (k v : String) : List (String × String) :=
  match env with
  | [] => [(k, v)]
  | (k0, v0) :: rest => if k0 = k then (k, v) :: rest else (k0, v0) :: setenvL rest k v

/-- One iteration of the env loop in cmdInit: an entry with an '=' is split
and set; an entry without one is dropped without any effect or error. -/
def applyEnvEntry (env : List (String × String)) (e : String) : List (String × String) :=
  match splitEq1 e.data with
  | some (k, v) => setenvL env (String.mk k) (String.mk v)
  | none => env

/-- Model of the environment setup in cmdInit: when the declared list is
non-empty the inherited environment is cleared (os.Clearenv) and the declared
entries are applied to the empty environment; an empty declared list leaves
the inherited environment untouched. -/
def setupEnv (inherited : List (String × String)) (declared : List String) :
    List (String × String) :=
  if declared.length > 0 then declared.foldl applyEnvEntry [] else inherited

/-! ## Signal resolution in cmdKill and the kill CLI adapter (claim C7) -/

/-- Signal number of SIGHUP. -/
def sigHUP : Int := 1

/-- Signal number of SIGINT. -/
def sigINT : Int := 2

/-- Signal number of SIGKILL. -/
def sigKILL : Int := 9

/-- Signal number of SIGTERM. -/
def sigTERM : Int := 15

/-- Model of the signal resolution in cmdKill: empty defaults to SIGTERM;
a SIG-prefixed name is looked up in the four-entry table, an unknown one
keeping the default; otherwise a successful Atoi gives the signal number and
a failed one keeps the default. -/
def resolveSignal (signal : String) : Int :=
  if signal = "" then sigTERM
  else if hasPre signal "SIG" then
    if signal = "SIGTERM" then sigTERM
    else if signal = "SIGKILL" then sigKILL
    else if signal = "SIGINT" then sigINT
    else if signal = "SIGHUP" then sigHUP
    else sigTERM
  else
    match atoi signal with
    | some n => n
    | none => sigTERM

/-- The kill CLI path composed with cmdKill: cli.go strips one leading dash
from the signal token (strings.TrimPrefix) before handing it to cmdKill. -/
def cliKillSignal (raw : String) : Int := resolveSignal (trimPre raw "-")

/-! ## JSON documents

Go encoding/json text and its parser are mutually faithful on well-formed
documents, so serialization is modelled at the level of JSON trees: the
interesting content of Save/Load and LoadSpec is the mapping between Go
structs and JSON trees (field tags, omitempty, zero defaults for absent
fields), which is embedded below.  All numbers this program serializes are
integers; time values appear as their injectively rendered instant. -/

/-- JSON trees, restricted to the shapes this program produces and consumes. -/
inductive Json where
  | str (s : String)
  | num (n : Int)
  | bool (b : Bool)
  | arr (elems : List Json)
  | obj (fields : List (String × Json))

/-- Look a key up among the fields of a JSON object. -/
def jLookup : List (String × Json) → String → Option Json
  | [], _ => none
  | (k, v) :: rest, q => if k = q then some v else jLookup rest q

/-- Encode an annotation map as a JSON object. -/
def encodeAnnots (l : List (String × String)) : List (String × Json) :=
  l.map (fun kv => (kv.1, Json.str kv.2))

/-- Decode a JSON object back into an annotation map; every value must be a
string. -/
def decodeAnnots : List (String × Json) → Option (List (String × String))
  | [] => some []
  | (k, Json.str v) :: rest => (decodeAnnots rest).map (fun l => (k, v) :: l)
  | _ :: _ => none

/-- Marshalling of a ContainerState per its json tags: the five untagged
fields always appear; startedAt, exitedAt, exitCode, annotations and pidFile
carry omitempty and are dropped when nil (for the map: when empty, since
omitempty tests len) or the empty string. -/
def encodeState (st : ContainerState) : Json :=
  Json.obj
    ([("id", Json.str st.ID), ("bundle", Json.str st.Bundle),
      ("pid", Json.num st.Pid), ("status", Json.str st.Status),
      ("createdAt", Json.num st.CreatedAt)]
     ++ (match st.StartedAt with
         | none => []
         | some t => [("startedAt", Json.num t)])
     ++ (match st.ExitedAt with
         | none => []
         | some t => [("exitedAt", Json.num t)])
     ++ (match st.ExitCode with
         | none => []
         | some c => [("exitCode", Json.num c)])
     ++ (match st.Annotations with
         | none => []
         | some [] => []
         | some l => [("annotations", Json.obj (encodeAnnots l))])
     ++ (if st.PidFile == "" then [] else [("pidFile", Json.str st.PidFile)]))

/-- Read an expected string field: absent keeps the zero value "", a present
non-string is an unmarshal error. -/
def fieldStr (fs : List (String × Json)) (k : String) : Option String :=
  match jLookup fs k with
  | none => some ""
  | some (Json.str s) => some s
  | some _ => none

/-- Read an expected integer field (int or modelled time instant): absent
keeps the zero value 0. -/
def fieldNum (fs : List (String × Json)) (k : String) : Option Int :=
  match jLookup fs k with
  | none => some 0
  | some (Json.num n) => some n
  | some _ => none

/-- Read an expected bool field: absent keeps the zero value false. -/
def fieldBool (fs : List (String × Json)) (k : String) : Option Bool :=
  match jLookup fs k with
  | none => some false
  | some (Json.bool b) => some b
  | some _ => none

/-- Read an optional (pointer) integer field: absent leaves the nil pointer. -/
def fieldNumOpt (fs : List (String × Json)) (k : String) : Option (Option Int) :=
  match jLookup fs k with
  | none => some none
  | some (Json.num n) => some (some n)
  | some _ => none

/-- Read a nillable map field: absent leaves the nil map. -/
def fieldAnnots (fs : List (String × Json)) (k : String) :
    Option (Option (List (String × String))) :=
  match jLookup fs k with
  | none => some none
  | some (Json.obj l) => (decodeAnnots l).map some
  | some _ => none

/-- Unmarshalling of a ContainerState document, with Go semantics: absent
fields keep their zero values, mistyped fields fail. -/
def decodeState (j : Json) : Option ContainerState :=
  match j with
  | Json.obj fs => do
    let id ← fieldStr fs "id"
    let bundle ← fieldStr fs "bundle"
    let pid ← fieldNum fs "pid"
    let status ← fieldStr fs "status"
    let createdAt ← fieldNum fs "createdAt"
    let startedAt ← fieldNumOpt fs "startedAt"
    let exitedAt ← fieldNumOpt fs "exitedAt"
    let exitCode ← fieldNumOpt fs "exitCode"
    let annots ← fieldAnnots fs "annotations"
    let pidFile ← fieldStr fs "pidFile"
    some { ID := id, Bundle := bundle, Pid := pid, Status := status,
           CreatedAt := createdAt, StartedAt := startedAt, ExitedAt := exitedAt,
           ExitCode := exitCode, Annotations := annots, PidFile := pidFile }
  | _ => none

/-- Read an expected string-array field: absent leaves the nil slice, which
is indistinguishable from the empty list in this program. -/
def fieldStrList (fs : List (String × Json)) (k : String) : Option (List String) :=
  match jLookup fs k with
  | none => some []
  | some (Json.arr l) => l.mapM (fun j => match j with | Json.str s => some s | _ => none)
  | some _ => none

/-- Unmarshalling of the process object of a Spec. -/
def decodeProcess (j : Json) : Option Runproc.Process :=
  match j with
  | Json.obj fs => do
    let terminal ← fieldBool fs "terminal"
    let args ← fieldStrList fs "args"
    let env ← fieldStrList fs "env"
    let cwd ← fieldStr fs "cwd"
    some { Terminal := terminal, Args := args, Env := env, Cwd := cwd }
  | _ => none

/-- Unmarshalling of the root object of a Spec. -/
def decodeRoot (j : Json) : Option Runproc.Root :=
  match j with
  | Json.obj fs => do
    let path ← fieldStr fs "path"
    let ro ← fieldBool fs "readonly"
    some { Path := path, Readonly := ro }
  | _ => none

/-- Unmarshalling of a whole Spec document: process and root are pointer
fields, left nil when absent. -/
def decodeSpec (j : Json) : Option Spec :=
  match j with
  | Json.obj fs => do
    let v ← fieldStr fs "ociVersion"
    let p ← (match jLookup fs "process" with
             | none => some none
             | some pj => (decodeProcess pj).map some)
    let r ← (match jLookup fs "root" with
             | none => some none
             | some rj => (decodeRoot rj).map some)
    let annots ← fieldAnnots fs "annotations"
    some { OCIVersion := v, Process := p, Root := r, Annotations := annots }
  | _ => none

/-- Model of oci.LoadSpec: configDoc is the parse of bundle/config.json (none
when the file cannot be opened).  The function decodes and returns the Spec;
it performs no validation beyond JSON decoding. -/
def LoadSpec (configDoc : Option Json) : Except String Spec :=
  match configDoc with
  | none => Except.error "open spec"
  | some j =>
    match decodeSpec j with
    | none => Except.error "decode spec"
    | some s => Except.ok s

/-! ## Filesystem model

The state directory is a finite map from paths to file contents.  Each
filesystem syscall (open-with-truncate, the write completing a document,
rename, unlink) is atomic, so the observable states of an operation are the
filesystem snapshots between consecutive syscalls: the traced operations
below return that snapshot list, and a concurrent reader can be scheduled at
any element of it.  A file freshly opened and truncated but not yet fully
written holds a torn (partially written) document. -/

/-- Content of one file: a torn (partially written) document, a whole JSON
document, or raw bytes such as the start marker. -/
inductive Doc where
  | torn
  | whole (j : Json)
  | raw (s : String)

/-- The state directory: an association list from paths to contents. -/
abbrev FS := List (String × Doc)

/-- Read a path. -/
def fsGet : FS → String → Option Doc
  | [], _ => none
  | (p, d) :: rest, q => if p = q then some d else fsGet rest q

/-- Write a path (replacing an existing entry). -/
def fsSet : FS → String → Doc → FS
  | [], q, d => [(q, d)]
  | (p, d0) :: rest, q, d => if p = q then (q, d) :: rest else (p, d0) :: fsSet rest q d

/-- Remove a path. -/
def fsDel : FS → String → FS
  | [], _ => []
  | (p, d) :: rest, q => if p = q then fsDel rest q else (p, d) :: fsDel rest q

/-- Path of the state document for an id (filepath.Join of the state root,
the id and "state.json"). -/
def statePath (stateRoot id : String) : String :=
  stateRoot ++ "/" ++ id ++ "/state.json"

/-- Path of the start marker for an id. -/
def startPath (stateRoot id : String) : String :=
  stateRoot ++ "/" ++ id ++ "/start"

/-- Model of state.Exists: a Stat on the state document succeeds. -/
def stateExists (fs : FS) (stateRoot id : String) : Bool :=
  (fsGet fs (statePath stateRoot id)).isSome

/-- Outcome of a traced state-store write: the result, the final filesystem,
and every filesystem snapshot observable between its syscalls. -/
structure WriteOut where
  res : Except String ContainerState
  fs : FS
  trace : List FS

/-- Model of state.Create: after MkdirAll (directories are implicit here) it
fails when the state document already exists; otherwise it stamps the record
with the clock reading and status created and writes the document by opening
the final path directly with O_CREATE, O_WRONLY and O_TRUNC and encoding into
it - two syscall steps, the first of which leaves a torn document at the
final path. -/
def stateCreateT (now : Time) (fs : FS) (stateRoot : String) (st : ContainerState) :
    WriteOut :=
  let p := statePath stateRoot st.ID
  match fsGet fs p with
  | some _ => ⟨Except.error ("container " ++ st.ID ++ " already exists"), fs, []⟩
  | none =>
    let st2 := { st with CreatedAt := now, Status := Created }
    let f1 := fsSet fs p Doc.torn
    let f2 := fsSet f1 p (Doc.whole (encodeState st2))
    ⟨Except.ok st2, f2, [f1, f2]⟩

/-- Final filesystem of state.Create. -/
def stateCreateF (now : Time) (fs : FS) (stateRoot : String) (st : ContainerState) :
    Except String FS :=
  let w := stateCreateT now fs stateRoot st
  match w.res with
  | Except.error e => Except.error e
  | Except.ok _ => Except.ok w.fs

/-- Model of state.Save: write the document to a temporary sibling path (two
syscall steps, the torn intermediate living only at the temporary path) and
atomically rename it over the final path. -/
def stateSaveT (fs : FS) (stateRoot : String) (st : ContainerState) : FS × List FS :=
  let p := statePath stateRoot st.ID
  let tmp := p ++ ".tmp"
  let f1 := fsSet fs tmp Doc.torn
  let f2 := fsSet f1 tmp (Doc.whole (encodeState st))
  let f3 := fsSet (fsDel f2 tmp) p (Doc.whole (encodeState st))
  (f3, [f1, f2, f3])

/-- Final filesystem of state.Save. -/
def stateSaveF (fs : FS) (stateRoot : String) (st : ContainerState) : FS :=
  (stateSaveT fs stateRoot st).1

/-- The two ways state.Load fails: the document is absent (os.IsNotExist) or
it does not decode. -/
inductive LoadErr where
  | notExist
  | badJson
deriving DecidableEq

/-- Model of state.Load: read the state document and unmarshal it. -/
def stateLoadF (fs : FS) (stateRoot id : String) : Except LoadErr ContainerState :=
  match fsGet fs (statePath stateRoot id) with
  | none => Except.error LoadErr.notExist
  | some (Doc.whole j) =>
    (match decodeState j with
     | some st => Except.ok st
     | none => Except.error LoadErr.badJson)
  | some _ => Except.error LoadErr.badJson

/-- Model of state.Delete: RemoveAll of the container directory, which holds
at most the state document, the start marker and a leftover temporary file. -/
def stateDeleteF (fs : FS) (stateRoot id : String) : FS :=
  fsDel (fsDel (fsDel fs (statePath stateRoot id)) (startPath stateRoot id))
    (statePath stateRoot id ++ ".tmp")

/-! ## Lifecycle controller (the command package) -/

/-- Record update performed by cmdStart when the loaded record is not already
running: status becomes running with a start timestamp.  An already-running
record is returned unchanged (the command is a no-op then). -/
def cmdStartUpdate (now : Time) (st : ContainerState) : ContainerState :=
  if st.Status == Running then st
  else { st with Status := Running, StartedAt := some now }

/-- Record update performed by the self-heal in cmdState: a running record
whose pid is no longer alive is rewritten to stopped with an exit timestamp;
anything else is returned unchanged. -/
def cmdStateUpdate (probe : Option Errno) (now : Time) (st : ContainerState) :
    ContainerState :=
  if st.Status == Running && !(pidAlive st.Pid probe) then
    { st with Status := Stopped, ExitedAt := some now }
  else st

/-- Record update performed by waitProcess once the blocking Wait4 returns
with exit status code: stopped, exit timestamp, exit code. -/
def waitProcessUpdate (code : Int) (now : Time) (st : ContainerState) :
    ContainerState :=
  { st with Status := Stopped, ExitedAt := some now, ExitCode := some code }

/-- Record update performed by cmdDelete before removal: on a running record,
a dead pid (first probe) heals to stopped; a live one receives SIGKILL and is
polled up to twenty times (the probes list), healing on the first dead
observation; a record that stays alive, or is not running, is unchanged. -/
def cmdDeleteUpdate (probe1 : Option Errno) (probes : List (Option Errno))
    (now : Time) (st : ContainerState) : ContainerState :=
  if st.Status == Running then
    if !(pidAlive st.Pid probe1) then
      { st with Status := Stopped, ExitedAt := some now }
    else if (probes.take 20).any (fun pr => !(pidAlive st.Pid pr)) then
      { st with Status := Stopped, ExitedAt := some now }
    else st
  else st

/-- Model of cmdCreate: reject an existing id, load the spec (its result is
the oracle specLoad), spawn the init child (pid oracle childPid; the pipe
plumbing, the pid-file write outside the state directory and the process
message sent over the pipe are OS effects that succeed on this path), and
persist the initial record through state.Create; a failed persist kills the
child and surfaces the error. -/
def cmdCreateM (now : Time) (childPid : Int) (specLoad : Except String Spec)
    (fs : FS) (stateRoot id bundle pidFile : String) : Except String FS :=
  if stateExists fs stateRoot id then
    Except.error ("container " ++ id ++ " already exists")
  else
    match specLoad with
    | Except.error e => Except.error e
    | Except.ok _spec =>
      let st : ContainerState :=
        { ID := id, Bundle := bundle, Pid := childPid, Status := "",
          CreatedAt := 0, StartedAt := none, ExitedAt := none, ExitCode := none,
          Annotations := none, PidFile := "" }
      match stateCreateF now fs stateRoot st with
      | Except.error e => Except.error e
      | Except.ok fs2 =>
        let _ := pidFile
        Except.ok fs2

/-- Model of cmdStart: load the record; an already-running one is a no-op
success; otherwise write the start marker file, then save the record as
running with a start timestamp. -/
def cmdStartM (now : Time) (fs : FS) (stateRoot id : String) : Except LoadErr FS :=
  match stateLoadF fs stateRoot id with
  | Except.error e => Except.error e
  | Except.ok st =>
    if st.Status == Running then Except.ok fs
    else
      let fs1 := fsSet fs (startPath stateRoot id) (Doc.raw "start")
      Except.ok (stateSaveF fs1 stateRoot (cmdStartUpdate now st))

/-- Model of waitProcess: load the record, reject a non-positive pid, block
in Wait4 until the child exits (the numeric status is the oracle
exitStatus), record stopped with the exit timestamp and code, and return the
code. -/
def waitProcessM (now : Time) (exitStatus : Int) (fs : FS) (stateRoot id : String) :
    Except String (Int × FS) :=
  match stateLoadF fs stateRoot id with
  | Except.error _ => Except.error "load state"
  | Except.ok st =>
    if st.Pid ≤ 0 then Except.error "no pid"
    else
      Except.ok (exitStatus, stateSaveF fs stateRoot (waitProcessUpdate exitStatus now st))

/-- Model of cmdDelete: an absent record is a no-op success; otherwise the
running-record healing of cmdDeleteUpdate runs (persisting when it changes
the record) and the directory is removed unconditionally. -/
def cmdDeleteM (probe1 : Option Errno) (probes : List (Option Errno)) (now : Time)
    (fs : FS) (stateRoot id : String) : Except LoadErr FS :=
  match stateLoadF fs stateRoot id with
  | Except.error LoadErr.notExist => Except.ok fs
  | Except.error e => Except.error e
  | Except.ok st =>
    let healed := cmdDeleteUpdate probe1 probes now st
    let fs2 := if healed.Status == st.Status then fs else stateSaveF fs stateRoot healed
    Except.ok (stateDeleteF fs2 stateRoot id)

/-- Model of the run branch of cli.go: cmdCreate, then cmdStart (a failure
there triggers a best-effort cmdDelete), then waitProcess.  Any failure
yields process exit code 1; after a successful wait the child exit code
returned by waitProcess is discarded and the command exits 0. -/
def runCmd (now1 now2 now3 : Time) (childPid exitStatus : Int)
    (specLoad : Except String Spec) (probe1 : Option Errno)
    (probes : List (Option Errno)) (fs : FS) (stateRoot id bundle pidFile : String) :
    Int × FS :=
  match cmdCreateM now1 childPid specLoad fs stateRoot id bundle pidFile with
  | Except.error _ => (1, fs)
  | Except.ok fs1 =>
    match cmdStartM now2 fs1 stateRoot id with
    | Except.error _ =>
      (match cmdDeleteM probe1 probes now2 fs1 stateRoot id with
       | Except.ok fs1b => (1, fs1b)
       | Except.error _ => (1, fs1))
    | Except.ok fs2 =>
      match waitProcessM now3 exitStatus fs2 stateRoot id with
      | Except.error _ => (1, fs2)
      | Except.ok (_code, fs3) => (0, fs3)

/-! ## Theorems -/

/-- C9: the liveness check pidAlive returns false for every non-positive pid,
true when the probe succeeds, true when the probe fails with EPERM (a process
the caller cannot signal is still alive), and false for every other probe
failure. -/
theorem pidAlive_characterization (pid : Int) (probe : Option Errno) :
    (pid ≤ 0 → pidAlive pid probe = false)
    ∧ (0 < pid → pidAlive pid none = true)
    ∧ (0 < pid → pidAlive pid (some Errno.EPERM) = true)
    ∧ (∀ e, 0 < pid → e ≠ Errno.EPERM → pidAlive pid (some e) = false) := by
  refine ⟨fun h => ?_, fun h => ?_, fun h => ?_, fun e h he => ?_⟩
  · simp [pidAlive, h]
  · simp [pidAlive, not_le.mpr h]
  · simp [pidAlive, not_le.mpr h]
  · simp [pidAlive, not_le.mpr h, he]

/-- Witness for pidAlive_characterization at concrete pids and probe
outcomes. -/
theorem pidAlive_characterization_witness :
    pidAlive (-1) none = false ∧ pidAlive 5 none = true
    ∧ pidAlive 5 (some Errno.EPERM) = true
    ∧ pidAlive 5 (some Errno.ESRCH) = false :=
  ⟨(pidAlive_characterization (-1) none).1 (by decide),
   (pidAlive_characterization 5 none).2.1 (by decide),
   (pidAlive_characterization 5 (some Errno.EPERM)).2.2.1 (by decide),
   (pidAlive_characterization 5 (some Errno.ESRCH)).2.2.2 Errno.ESRCH (by decide)
     (by decide)⟩

/-- C5: the host-mode decision is the disjunction of the supervisor-process
environment signal, the declared-environment signal and the annotation
signal, and a signal value is truthy exactly when it is the literal "1" or a
case-insensitive match of "true" or "yes". -/
theorem hostMode_disjunction (ownHost : String) (penv : List String)
    (annots : Option (List (String × String))) :
    hostModeOf ownHost penv annots
      = (truthyVal ownHost || envHostSignal penv || annotHostSignal annots)
    ∧ ∀ v : String,
        truthyVal v = true ↔ (v = "1" ∨ eqFold v "true" = true ∨ eqFold v "yes" = true) := by
  constructor
  · unfold hostModeOf annotHostSignal
    rcases annots with _ | m
    · cases h1 : truthyVal ownHost <;> cases h2 : envHostSignal penv <;> simp [h1, h2]
    · rcases h3 : lookupStr m "runproc.host" with _ | v
      · cases h1 : truthyVal ownHost <;> cases h2 : envHostSignal penv <;> simp [h1, h2, h3]
      · cases hv : truthyVal v <;> cases h1 : truthyVal ownHost <;>
          cases h2 : envHostSignal penv <;> simp [h1, h2, h3, hv]
  · intro v
    simp [truthyVal, or_assoc]

/-- C10: when the declared environment list is non-empty the supervisor
discards the inherited environment and builds the result from the declared
entries alone; a declared entry with no '=' separator is dropped without
effect; an empty declared list keeps the inherited environment unchanged. -/
theorem env_replacement (inherited : List (String × String)) (declared : List String) :
    (declared = [] → setupEnv inherited declared = inherited)
    ∧ (declared ≠ [] → setupEnv inherited declared = declared.foldl applyEnvEntry [])
    ∧ ∀ (env : List (String × String)) (e : String),
        splitEq1 e.data = none → applyEnvEntry env e = env := by
  refine ⟨fun h => ?_, fun h => ?_, fun env e he => ?_⟩
  · subst h; simp [setupEnv]
  · have hl : 0 < declared.length := List.length_pos.mpr h
    simp [setupEnv, hl]
  · simp [applyEnvEntry, he]

/-- Witness for env_replacement: an empty declared list keeps the inherited
environment, a non-empty one replaces it with the declared entries only, and
a '='-less entry is dropped. -/
theorem env_replacement_witness :
    setupEnv [("A", "1")] [] = [("A", "1")]
    ∧ setupEnv [("A", "1")] ["B=2", "junk"] = [("B", "2")]
    ∧ applyEnvEntry [("B", "2")] "junk" = [("B", "2")] := by
  refine ⟨(env_replacement [("A", "1")] []).1 rfl, ?_,
    (env_replacement [] []).2.2 [("B", "2")] "junk" (by decide)⟩
  rw [(env_replacement [("A", "1")] ["B=2", "junk"]).2.1 (by decide)]
  rfl

/-- C6: the chroot step runs exactly when host mode is off, the Spec declares
a non-nil root with a non-empty path, and the effective uid is 0; the root
path is used as-is when absolute and joined onto the bundle otherwise, with
the working directory changed to the filesystem root afterwards; when any
condition fails the step is skipped silently, producing no error. -/
theorem chroot_conditions (h : Bool) (r? : Option Runproc.Root) (e : Int) (b : String) :
    ((chrootStep h r? e b).isSome = true
       ↔ (h = false ∧ ∃ r, r? = some r ∧ r.Path ≠ "" ∧ e = 0))
    ∧ (∀ r, r? = some r → h = false → r.Path ≠ "" → e = 0 →
        chrootStep h r? e b
          = some { newRoot := if isAbsPath r.Path then r.Path else joinPath b r.Path,
                   postChdir := "/" })
    ∧ (chrootStep h r? e b = none →
        ∀ cf cd, chrootRun h r? e b cf cd = Except.ok none) := by
  refine ⟨?_, ?_, ?_⟩
  · rcases r? with _ | r
    · simp [chrootStep]
    · cases h <;> by_cases hp : r.Path = "" <;> by_cases he : e = 0 <;>
        simp [chrootStep, hp, he]
  · intro r hr hh hp he
    subst hr; subst hh; subst he
    simp [chrootStep, hp]
  · intro hnone cf cd
    simp [chrootRun, hnone]

/-- A non-empty all-digits string starts with a decimal digit. -/
theorem digits_shape {s : String} (h : isAllDigits s = true) :
    ∃ c rest, s.data = c :: rest ∧ '0' ≤ c ∧ c ≤ '9' := by
  unfold isAllDigits at h
  rw [Bool.and_eq_true] at h
  obtain ⟨hne, hall⟩ := h
  cases hd : s.data with
  | nil => rw [hd] at hne; simp at hne
  | cons c rest =>
    rw [hd, List.all_cons, Bool.and_eq_true] at hall
    have hc := hall.1
    rw [Bool.and_eq_true] at hc
    exact ⟨c, rest, rfl, of_decide_eq_true hc.1, of_decide_eq_true hc.2⟩


/-- An all-digits string does not start with a dash. -/
theorem hasPre_dash_of_digits {s : String} (h : isAllDigits s = true) :
    hasPre s "-" = false := by
  obtain ⟨c, rest, hd, hc0, _⟩ := digits_shape h
  unfold hasPre
  rw [hd]
  have hne : ('-' == c) = false := by
    rw [beq_eq_false_iff_ne]
    intro hEq
    rw [← hEq] at hc0
    exact absurd hc0 (by decide)
  have hdata : "-".data = ['-'] := rfl
  rw [hdata]
  simp [charsPre, hne]

/-- An all-digits string does not start with SIG. -/
theorem hasPre_sig_of_digits {s : String} (h : isAllDigits s = true) :
    hasPre s "SIG" = false := by
  obtain ⟨c, rest, hd, _, hc9⟩ := digits_shape h
  unfold hasPre
  rw [hd]
  have hne : ('S' == c) = false := by
    rw [beq_eq_false_iff_ne]
    intro hEq
    rw [← hEq] at hc9
    exact absurd hc9 (by decide)
  have hdata : "SIG".data = ['S', 'I', 'G'] := rfl
  rw [hdata]
  simp [charsPre, hne]

/-- An all-digits string is non-empty. -/
theorem ne_empty_of_digits {s : String} (h : isAllDigits s = true) : ¬ s = "" := by
  obtain ⟨c, rest, hd, _, _⟩ := digits_shape h
  intro hEq
  rw [hEq] at hd
  have hnil : ([] : List Char) = c :: rest := hd
  exact List.noConfusion hnil

/-- The dash-trim of the CLI kill adapter leaves an all-digits token
unchanged. -/
theorem trimPre_of_digits {s : String} (h : isAllDigits s = true) :
    trimPre s "-" = s := by
  simp [trimPre, hasPre_dash_of_digits h]

/-- The dash-trim of the CLI kill adapter strips one leading dash. -/
theorem trimPre_dash_append (s : String) : trimPre ("-" ++ s) "-" = s := rfl

/-- C7: kill signal resolution: empty defaults to SIGTERM; the four symbolic
names map to their signals; a bare or dash-prefixed all-digits token resolves
to the number it denotes; any other token that is not numeric after the dash
trim falls back to SIGTERM. -/
theorem kill_signal_resolution :
    resolveSignal "" = sigTERM
    ∧ cliKillSignal "SIGTERM" = sigTERM
    ∧ cliKillSignal "SIGKILL" = sigKILL
    ∧ cliKillSignal "SIGINT" = sigINT
    ∧ cliKillSignal "SIGHUP" = sigHUP
    ∧ (∀ (s : String) (n : Int), isAllDigits s = true → atoi s = some n →
        cliKillSignal s = n ∧ cliKillSignal ("-" ++ s) = n)
    ∧ (∀ s : String, atoi (trimPre s "-") = none →
        trimPre s "-" ∉ (["SIGTERM", "SIGKILL", "SIGINT", "SIGHUP"] : List String) →
        cliKillSignal s = sigTERM) := by
  refine ⟨rfl, rfl, rfl, rfl, rfl, ?_, ?_⟩
  · intro s n hdig ha
    have hres : resolveSignal s = n := by
      simp [resolveSignal, ne_empty_of_digits hdig, hasPre_sig_of_digits hdig, ha]
    constructor
    · unfold cliKillSignal
      rw [trimPre_of_digits hdig]
      exact hres
    · unfold cliKillSignal
      rw [trimPre_dash_append s]
      exact hres
  · intro s ha hmem
    unfold cliKillSignal
    set t := trimPre s "-" with ht
    simp only [List.mem_cons, List.not_mem_nil, or_false, not_or] at hmem
    obtain ⟨h1, h2, h3, h4⟩ := hmem
    by_cases hE : t = ""
    · simp [resolveSignal, hE]
    · cases hS : hasPre t "SIG" with
      | true => simp [resolveSignal, hE, hS, h1, h2, h3, h4]
      | false => simp [resolveSignal, hE, hS, ha]

/-- Witness for kill_signal_resolution at the concrete tokens 9, -9 and the
unknown name SIGUSR1. -/
theorem kill_signal_resolution_witness :
    cliKillSignal "9" = 9 ∧ cliKillSignal "-9" = 9 ∧ cliKillSignal "SIGUSR1" = sigTERM := by
  refine ⟨?_, ?_, ?_⟩
  · exact (kill_signal_resolution.2.2.2.2.2.1 "9" 9 (by decide) (by decide)).1
  · exact (kill_signal_resolution.2.2.2.2.2.1 "9" 9 (by decide) (by decide)).2
  · exact kill_signal_resolution.2.2.2.2.2.2 "SIGUSR1" (by decide) (by decide)

/-- Witness for chroot_conditions: a relative root path with uid 0 and host
mode off is joined onto the bundle, and a host-mode run skips without
error. -/
theorem chroot_conditions_witness :
    chrootStep false (some { Path := "rootfs", Readonly := false }) 0 "/b"
      = some { newRoot := if isAbsPath "rootfs" then "rootfs" else joinPath "/b" "rootfs",
               postChdir := "/" }
    ∧ chrootRun true (some { Path := "rootfs", Readonly := false }) 0 "/b" true true
      = Except.ok none :=
  ⟨(chroot_conditions false (some { Path := "rootfs", Readonly := false }) 0 "/b").2.1
      { Path := "rootfs", Readonly := false } rfl rfl (by decide) rfl,
   (chroot_conditions true (some { Path := "rootfs", Readonly := false }) 0 "/b").2.2
      (by rfl) true true⟩

/-- A concrete well-formed bundle document whose process declares an empty
argument vector. -/
def c4cfg : Json :=
  Json.obj [("ociVersion", Json.str "1.1.0"),
    ("process", Json.obj [("terminal", Json.bool false), ("args", Json.arr []),
      ("env", Json.arr []), ("cwd", Json.str "/")]),
    ("root", Json.obj [("path", Json.str "/"), ("readonly", Json.bool false)])]

/-- The Spec that c4cfg decodes to. -/
def c4spec : Spec :=
  { OCIVersion := "1.1.0",
    Process := some { Terminal := false, Args := [], Env := [], Cwd := "/" },
    Root := some { Path := "/", Readonly := false },
    Annotations := none }

/-- C4 counterexample: loading a bundle whose process declares an empty
argument vector does not fail; LoadSpec returns the Spec successfully with
Process.Args empty. -/
theorem loadSpec_accepts_empty_args :
    LoadSpec (some c4cfg) = Except.ok c4spec
    ∧ c4spec.Process = some { Terminal := false, Args := [], Env := [], Cwd := "/" } :=
  ⟨rfl, rfl⟩

/-- C4 amended: LoadSpec performs no validation of the argument vector -
every document that decodes is returned successfully, empty Args included -
and the empty vector instead makes the supervisor argv construction in
cmdInit fail (an index-out-of-range panic, modelled by buildArgv returning
none). -/
theorem loadSpec_no_args_validation (j : Json) (s : Spec)
    (h : decodeSpec j = some s) :
    LoadSpec (some j) = Except.ok s ∧ buildArgv [] = none :=
  ⟨by simp [LoadSpec, h], rfl⟩

/-- Witness for loadSpec_no_args_validation at the concrete empty-args
bundle document. -/
theorem loadSpec_no_args_validation_witness :
    LoadSpec (some c4cfg) = Except.ok c4spec ∧ buildArgv [] = none :=
  loadSpec_no_args_validation c4cfg c4spec rfl

/-- Normalization JSON round-tripping applies to a record: an empty non-nil
annotation map comes back as the nil map, every other record is unchanged. -/
def normAnnots (st : ContainerState) : ContainerState :=
  if st.Annotations = some [] then { st with Annotations := none } else st

/-- Annotation maps decode back from their encoding. -/
theorem decodeAnnots_encodeAnnots (l : List (String × String)) :
    decodeAnnots (encodeAnnots l) = some l := by
  induction l with
  | nil => rfl
  | cons kv rest ih =>
    obtain ⟨k, v⟩ := kv
    simp only [encodeAnnots, List.map_cons] at ih ⊢
    simp [decodeAnnots, ih]

/-- Round trip of the ContainerState marshalling: decoding an encoded record
gives the record back up to the omitempty collapse of an empty non-nil
annotation map. -/
theorem decodeState_encodeState (st : ContainerState) :
    decodeState (encodeState st) = some (normAnnots st) := by
  obtain ⟨id, bundle, pid, status, createdAt, started, exited, ecode, annots, pf⟩ := st
  cases started <;> cases exited <;> cases ecode <;>
    rcases annots with _ | (_ | ⟨kv, rest⟩) <;>
    by_cases hp : pf = "" <;>
    simp [encodeState, decodeState, normAnnots, jLookup, fieldStr, fieldNum,
      fieldNumOpt, fieldAnnots, hp, decodeAnnots_encodeAnnots]

/-- Reading a path just written gives the written content. -/
theorem fsGet_fsSet_same (fs : FS) (p : String) (d : Doc) :
    fsGet (fsSet fs p d) p = some d := by
  induction fs with
  | nil => simp [fsSet, fsGet]
  | cons hd rest ih =>
    obtain ⟨q, d0⟩ := hd
    by_cases h : q = p <;> simp [fsSet, fsGet, h, ih]

/-- Writing one path does not change what another path reads. -/
theorem fsGet_fsSet_ne (fs : FS) (p q : String) (d : Doc) (h : ¬ p = q) :
    fsGet (fsSet fs p d) q = fsGet fs q := by
  induction fs with
  | nil => simp [fsSet, fsGet, h]
  | cons hd rest ih =>
    obtain ⟨r, d0⟩ := hd
    by_cases hr : r = p
    · subst hr
      simp [fsSet, fsGet, h]
    · simp [fsSet, fsGet, hr, ih]

/-- C8 amended: saving a record and loading it back by its id reproduces it
exactly except that an empty non-nil annotation map loads back as the nil
map (omitempty drops empty maps); any record whose annotation map is nil or
non-empty round-trips to itself. -/
theorem save_load_roundtrip (fs : FS) (stateRoot : String) (st : ContainerState) :
    stateLoadF (stateSaveF fs stateRoot st) stateRoot st.ID = Except.ok (normAnnots st)
    ∧ (st.Annotations ≠ some [] → normAnnots st = st) := by
  constructor
  · unfold stateSaveF stateSaveT stateLoadF
    simp only []
    rw [fsGet_fsSet_same]
    simp [decodeState_encodeState]
  · intro h
    simp [normAnnots, h]

/-- Witness for save_load_roundtrip: a record with annotations and all
optional fields populated round-trips to itself. -/
theorem save_load_roundtrip_witness :
    stateLoadF
        (stateSaveF [] "/run/runproc"
          { ID := "w8", Bundle := "/b", Pid := 7, Status := Running, CreatedAt := 10,
            StartedAt := some 11, ExitedAt := some 12, ExitCode := some 0,
            Annotations := some [("k", "v")], PidFile := "/p" })
        "/run/runproc" "w8"
      = Except.ok
          { ID := "w8", Bundle := "/b", Pid := 7, Status := Running, CreatedAt := 10,
            StartedAt := some 11, ExitedAt := some 12, ExitCode := some 0,
            Annotations := some [("k", "v")], PidFile := "/p" } := by
  have h := save_load_roundtrip [] "/run/runproc"
    { ID := "w8", Bundle := "/b", Pid := 7, Status := Running, CreatedAt := 10,
      StartedAt := some 11, ExitedAt := some 12, ExitCode := some 0,
      Annotations := some [("k", "v")], PidFile := "/p" }
  rw [h.2 (by decide)] at h
  exact h.1

/-- A record carrying an empty non-nil annotation map. -/
def c8rec : ContainerState :=
  { ID := "c8", Bundle := "/b", Pid := 7, Status := Running, CreatedAt := 10,
    StartedAt := some 11, ExitedAt := none, ExitCode := none,
    Annotations := some [], PidFile := "" }

/-- C8 counterexample: a record holding an empty non-nil annotation map does
not round-trip: it loads back with the nil map, a different record. -/
theorem save_load_not_identity_on_empty_map :
    stateLoadF (stateSaveF [] "/run/runproc" c8rec) "/run/runproc" "c8"
      = Except.ok { c8rec with Annotations := none }
    ∧ ({ c8rec with Annotations := none } : ContainerState) ≠ c8rec :=
  ⟨rfl, by decide⟩

/-- A path never equals itself extended with the temp suffix. -/
theorem tmp_ne (p : String) : ¬ (p ++ ".tmp" = p) := by
  intro h
  have hlen := congrArg String.length h
  rw [String.length_append] at hlen
  have h4 : String.length ".tmp" = 4 := rfl
  rw [h4] at hlen
  omega

/-- C3 amended: state.Create fails with an already-exists error when the
record is present (without writing); otherwise it returns the record stamped
with status created and the clock reading and leaves its encoding at the
state path - but it writes the final path directly, so the first observable
snapshot holds a torn document there; state.Save, by contrast, goes through
a temp file plus rename and every one of its observable snapshots shows the
old or the new document at the state path, never a torn one. -/
theorem stateCreate_stateSave_behavior (now : Time) (fs : FS) (stateRoot : String)
    (st : ContainerState) :
    (stateExists fs stateRoot st.ID = true →
       (stateCreateT now fs stateRoot st).res
         = Except.error ("container " ++ st.ID ++ " already exists")
       ∧ (stateCreateT now fs stateRoot st).trace = [])
    ∧ (stateExists fs stateRoot st.ID = false →
       (stateCreateT now fs stateRoot st).res
           = Except.ok { st with CreatedAt := now, Status := Created }
       ∧ fsGet (stateCreateT now fs stateRoot st).fs (statePath stateRoot st.ID)
           = some (Doc.whole (encodeState { st with CreatedAt := now, Status := Created }))
       ∧ ∃ g, (stateCreateT now fs stateRoot st).trace.head? = some g
           ∧ fsGet g (statePath stateRoot st.ID) = some Doc.torn)
    ∧ (∀ g ∈ (stateSaveT fs stateRoot st).2,
        fsGet g (statePath stateRoot st.ID) = fsGet fs (statePath stateRoot st.ID)
        ∨ fsGet g (statePath stateRoot st.ID) = some (Doc.whole (encodeState st))) := by
  refine ⟨fun h => ?_, fun h => ?_, ?_⟩
  · unfold stateExists at h
    cases hfs : fsGet fs (statePath stateRoot st.ID) with
    | none => rw [hfs] at h; simp at h
    | some d => constructor <;> simp [stateCreateT, hfs]
  · unfold stateExists at h
    cases hfs : fsGet fs (statePath stateRoot st.ID) with
    | none =>
      refine ⟨?_, ?_, ?_⟩
      · simp [stateCreateT, hfs]
      · simp only [stateCreateT, hfs]
        exact fsGet_fsSet_same _ _ _
      · simp only [stateCreateT, hfs]
        exact ⟨fsSet fs (statePath stateRoot st.ID) Doc.torn, rfl, fsGet_fsSet_same _ _ _⟩
    | some d => rw [hfs] at h; simp at h
  · intro g hg
    unfold stateSaveT at hg
    simp only [List.mem_cons, List.not_mem_nil, or_false] at hg
    have hne : ¬ (statePath stateRoot st.ID ++ ".tmp" = statePath stateRoot st.ID) :=
      tmp_ne _
    rcases hg with hg | hg | hg
    · subst hg
      exact Or.inl (fsGet_fsSet_ne _ _ _ _ hne)
    · subst hg
      rw [fsGet_fsSet_ne _ _ _ _ hne, fsGet_fsSet_ne _ _ _ _ hne]
      exact Or.inl rfl
    · subst hg
      exact Or.inr (fsGet_fsSet_same _ _ _)

/-- A blank record for the witness of the state-store behavior. -/
def w3rec : ContainerState :=
  { ID := "w3", Bundle := "/b", Pid := 0, Status := "", CreatedAt := 0,
    StartedAt := none, ExitedAt := none, ExitCode := none, Annotations := none,
    PidFile := "" }

/-- Witness for stateCreate_stateSave_behavior: a present record makes
Create fail without writing, an absent one is created with status created
and a torn first snapshot. -/
theorem stateCreate_stateSave_behavior_witness :
    ((stateCreateT 0 [(statePath "/r" "w3", Doc.torn)] "/r" w3rec).res
       = Except.error ("container " ++ "w3" ++ " already exists")
     ∧ (stateCreateT 0 [(statePath "/r" "w3", Doc.torn)] "/r" w3rec).trace = [])
    ∧ ((stateCreateT 0 [] "/r" w3rec).res
         = Except.ok { w3rec with CreatedAt := 0, Status := Created }
       ∧ fsGet (stateCreateT 0 [] "/r" w3rec).fs (statePath "/r" "w3")
           = some (Doc.whole (encodeState { w3rec with CreatedAt := 0, Status := Created }))
       ∧ ∃ g, (stateCreateT 0 [] "/r" w3rec).trace.head? = some g
           ∧ fsGet g (statePath "/r" "w3") = some Doc.torn) :=
  ⟨(stateCreate_stateSave_behavior 0 [(statePath "/r" "w3", Doc.torn)] "/r" w3rec).1 rfl,
   (stateCreate_stateSave_behavior 0 [] "/r" w3rec).2.1 rfl⟩

/-- A blank record named c3 for the non-atomicity counterexample. -/
def c3rec : ContainerState :=
  { ID := "c3", Bundle := "/b", Pid := 0, Status := "", CreatedAt := 0,
    StartedAt := none, ExitedAt := none, ExitCode := none, Annotations := none,
    PidFile := "" }

/-- C3 counterexample: during state.Create of a fresh record the first
observable filesystem snapshot already holds the state document in torn
(partially written) form - a concurrent reader scheduled there observes a
partial document, refuting the write-then-rename claim for create. -/
theorem stateCreate_torn_observable :
    (stateCreateT 0 [] "/run/runproc" c3rec).trace.head?
      = some [(statePath "/run/runproc" "c3", Doc.torn)]
    ∧ fsGet [(statePath "/run/runproc" "c3", Doc.torn)] (statePath "/run/runproc" "c3")
      = some Doc.torn :=
  ⟨rfl, by simp [fsGet]⟩

/-- Rank of a status along the lifecycle order created, running, stopped. -/
def statusRank (s : String) : Nat :=
  if s == Created then 0 else if s == Running then 1 else 2

/-- The status values the program ever writes. -/
def statusValid (s : String) : Prop := s = Created ∨ s = Running ∨ s = Stopped

/-- Every rank is at most the rank of stopped. -/
theorem statusRank_le_two (s : String) : statusRank s ≤ 2 := by
  unfold statusRank
  split
  · omega
  · split <;> omega

/-- C2 amended: under the state, delete and wait operations the status only
moves forward along created, running, stopped, and a stopped record keeps
status stopped under all three; the start operation however moves any record
that is not running - a stopped one included - to running, so stopped is
terminal for every operation except start. -/
theorem lifecycle_monotone_except_start (st : ContainerState) (h : statusValid st.Status)
    (probe probe1 : Option Errno) (probes : List (Option Errno)) (now : Time)
    (code : Int) :
    statusRank st.Status ≤ statusRank (cmdStateUpdate probe now st).Status
    ∧ statusRank st.Status ≤ statusRank (cmdDeleteUpdate probe1 probes now st).Status
    ∧ statusRank st.Status ≤ statusRank (waitProcessUpdate code now st).Status
    ∧ (st.Status = Stopped →
        (cmdStateUpdate probe now st).Status = Stopped
        ∧ (cmdDeleteUpdate probe1 probes now st).Status = Stopped
        ∧ (waitProcessUpdate code now st).Status = Stopped)
    ∧ (st.Status ≠ Running →
        cmdStartUpdate now st = { st with Status := Running, StartedAt := some now })
    ∧ (st.Status = Running → cmdStartUpdate now st = st) := by
  have hsr : (Stopped == Running) = false := by decide
  refine ⟨?_, ?_, ?_, fun hs => ⟨?_, ?_, ?_⟩, fun hn => ?_, fun hr => ?_⟩
  · unfold cmdStateUpdate
    split
    · exact statusRank_le_two _
    · exact le_refl _
  · unfold cmdDeleteUpdate
    split
    · split
      · exact statusRank_le_two _
      · split
        · exact statusRank_le_two _
        · exact le_refl _
    · exact le_refl _
  · exact statusRank_le_two _
  · simp [cmdStateUpdate, hs, hsr]
  · simp [cmdDeleteUpdate, hs, hsr]
  · rfl
  · simp [cmdStartUpdate, hn]
  · simp [cmdStartUpdate, hr]

/-- Witness for lifecycle_monotone_except_start at a concrete stopped
record: the reading operations keep it stopped, while start rewrites it to
running. -/
theorem lifecycle_monotone_except_start_witness :
    (cmdStateUpdate none 5
        { ID := "w2", Bundle := "/b", Pid := 9, Status := Stopped, CreatedAt := 0,
          StartedAt := some 1, ExitedAt := some 2, ExitCode := some 0,
          Annotations := none, PidFile := "" }).Status = Stopped
    ∧ cmdStartUpdate 5
        { ID := "w2", Bundle := "/b", Pid := 9, Status := Stopped, CreatedAt := 0,
          StartedAt := some 1, ExitedAt := some 2, ExitCode := some 0,
          Annotations := none, PidFile := "" }
      = { ID := "w2", Bundle := "/b", Pid := 9, Status := Running, CreatedAt := 0,
          StartedAt := some 5, ExitedAt := some 2, ExitCode := some 0,
          Annotations := none, PidFile := "" } :=
  ⟨((lifecycle_monotone_except_start
      { ID := "w2", Bundle := "/b", Pid := 9, Status := Stopped, CreatedAt := 0,
        StartedAt := some 1, ExitedAt := some 2, ExitCode := some 0,
        Annotations := none, PidFile := "" }
      (Or.inr (Or.inr rfl)) none none [] 5 0).2.2.2.1 rfl).1,
   ((lifecycle_monotone_except_start
      { ID := "w2", Bundle := "/b", Pid := 9, Status := Stopped, CreatedAt := 0,
        StartedAt := some 1, ExitedAt := some 2, ExitCode := some 0,
        Annotations := none, PidFile := "" }
      (Or.inr (Or.inr rfl)) none none [] 5 0).2.2.2.2.1 (by decide))⟩

/-- A stopped record on disk for the start-on-stopped counterexample. -/
def c2rec : ContainerState :=
  { ID := "c2", Bundle := "/b", Pid := 9, Status := Stopped, CreatedAt := 0,
    StartedAt := some 1, ExitedAt := some 2, ExitCode := some 0, Annotations := none,
    PidFile := "" }

/-- The filesystem holding the saved stopped record c2. -/
def c2fs0 : FS := stateSaveF [] "/r" c2rec

/-- C2 counterexample: with a stopped record on disk, the start command
succeeds and rewrites the record to running - a transition out of stopped,
refuting terminality of stopped under every operation. -/
theorem start_reruns_stopped :
    (stateLoadF c2fs0 "/r" "c2").map ContainerState.Status = Except.ok Stopped
    ∧ (cmdStartM 5 c2fs0 "/r" "c2").map
        (fun fs2 => (stateLoadF fs2 "/r" "c2").map ContainerState.Status)
      = Except.ok (Except.ok Running) :=
  ⟨rfl, rfl⟩

/-- The spec of a bundle whose process exits with status 3. -/
def c1spec : Spec :=
  { OCIVersion := "1.1.0",
    Process := some { Terminal := false, Args := ["/bin/sh", "-c", "exit 3"],
                      Env := [], Cwd := "/" },
    Root := some { Path := "/", Readonly := false },
    Annotations := none }

/-- C1: a full run of a container whose process exits with status 3 records
status stopped with exit code 3 in the state document, yet the run command
itself exits 0: the child exit code returned by waitProcess is discarded by
the run branch of cli.go, which contradicts the claimed propagation of the
exit code. -/
theorem run_discards_child_exit_code :
    (runCmd 1 2 3 42 3 (Except.ok c1spec) none [] [] "/run/runproc" "c1" "/b" "").1 = 0
    ∧ ((stateLoadF
          (runCmd 1 2 3 42 3 (Except.ok c1spec) none [] [] "/run/runproc" "c1" "/b" "").2
          "/run/runproc" "c1").map (fun st => (st.Status, st.ExitCode)))
      = Except.ok (Stopped, some 3)
    ∧ (0 : Int) ≠ 3 :=
  ⟨rfl, rfl, by decide⟩

end Runproc
